import Mathlib

/-!
Shallow embedding of `pkg/topom/redis.go` (package `topom` of the codis
repository): the `RedisClient` administrative client and the `RedisPool`
connection pool.

Modelling conventions:
* Time (`time.Time`, `time.Duration`) is modelled as `Nat`; `p.timeout / 2`
  is Lean's natural division, matching Go's integer division on the
  non-negative durations the pool is configured with.
* The transport connection (`redis.Conn`) is modelled by an environment
  `NetEnv`: `oracle i` is the outcome (transport error or decoded reply) of
  the `i`-th command actually written to the wire, and `now` is the clock.
  Each client operation additionally threads the list of commands sent so
  far (`tr : List Cmd`); a command that performs no I/O leaves it unchanged.
* `c.LastErr` stores only the transport error message, since the Go code
  only ever assigns `errors.Trace(err)` of a transport error to it and only
  tests it against `nil`.
* Closing a connection (`c.Close()`) is modelled as an effect: pool
  operations return the list of clients they closed.
-/

set_option autoImplicit false

/-- A decoded wire reply, the shapes redigo's reply decoders distinguish:
integers, bulk strings, nil, and arrays. -/
inductive Reply where
  | int (n : Int)
  | bulk (s : String)
  | nil
  | arr (xs : List Reply)

/-- A command written to the wire: its name and its rendered arguments. -/
structure Cmd where
  name : String
  args : List String
deriving DecidableEq

/-- The errors the embedded code can return.  `failedRedisClient` is
`ErrFailedRedisClient`, `closedRedisPool` is `ErrClosedRedisPool`;
`transport` wraps a transport failure from `conn.Do`, `dial` a failure of
`redis.DialTimeout`/`AUTH` inside `NewRedisClient`, `decode` an
`errors.Trace`d redigo decode failure, `invalidResponse`/`invalidResponseAt`
the `"invalid response"` formatted errors, `migrateFailed` the
`"migrate slot-%04d failed"` error, `slaveOfItself` the
`"can not slave of itself"` error and `badAddr` a `net.SplitHostPort`
failure. -/
inductive Err where
  | failedRedisClient
  | closedRedisPool
  | transport (msg : String)
  | dial (msg : String)
  | decode (msg : String)
  | invalidResponse (reply : Reply)
  | invalidResponseAt (i : Nat) (item : Reply)
  | migrateFailed (slotId : Int) (reply : Reply)
  | slaveOfItself
  | badAddr (msg : String)

/-- The `RedisClient` struct.  The `conn` field is replaced by the `NetEnv`
oracle; `addr`, `LastErr` and `LastUse` are the remaining fields. -/
structure RedisClient where
  addr : String
  LastErr : Option String
  LastUse : Nat
deriving DecidableEq

/-- The transport environment: the outcome of the `i`-th command written to
the wire, and the current clock value used for `time.Now()`. -/
structure NetEnv where
  oracle : Nat → Except String Reply
  now : Nat

/-- `RedisClient.command`: if the client is poisoned, fail with
`ErrFailedRedisClient` without touching the network; otherwise write the
command (appending it to the I/O trace), and either record and return the
transport error, or stamp `LastUse` and return the reply. -/
def RedisClient.command (env : NetEnv) (c : RedisClient) (cmd : Cmd) (tr : List Cmd) :
    Except Err Reply × RedisClient × List Cmd :=
  if c.LastErr ≠ none then
    (.error .failedRedisClient, c, tr)
  else
    match env.oracle tr.length with
    | .error e => (.error (.transport e), { c with LastErr := some e }, tr ++ [cmd])
    | .ok reply => (.ok reply, { c with LastUse := env.now }, tr ++ [cmd])

/-- redigo's `redis.Values`: succeeds exactly on array replies. -/
def redisValues : Reply → Except String (List Reply)
  | .arr xs => .ok xs
  | _ => .error "unexpected type for Values"

/-- redigo's `redis.Int`: integer replies, or bulk strings holding an
integer. -/
def redisInt : Reply → Except String Int
  | .int n => .ok n
  | .bulk s =>
    match s.toInt? with
    | some n => .ok n
    | none => .error "cannot parse integer"
  | _ => .error "unexpected type for Int"

/-- Elementwise integer decoding of a reply list, failing at the first
element that is not an integer. -/
def redisIntList : List Reply → Except String (List Int)
  | [] => .ok []
  | r :: rest =>
    match redisInt r with
    | .error e => .error e
    | .ok n =>
      match redisIntList rest with
      | .error e => .error e
      | .ok l => .ok (n :: l)

/-- redigo's `redis.Ints`: an array reply whose every element decodes as an
integer. -/
def redisInts (r : Reply) : Except String (List Int) :=
  match redisValues r with
  | .error e => .error e
  | .ok xs => redisIntList xs

/-- redigo's `redis.String`: succeeds exactly on bulk-string replies. -/
def redisString : Reply → Except String String
  | .bulk s => .ok s
  | _ => .error "unexpected type for String"

/-- The parsing loop of `RedisClient.SlotsInfo`: each element must decode as
exactly two integers `(slotId, keyCount)`; the first malformed element at
index `i` aborts with `invalid response[i]`.  The Go code inserts the pairs
into a map; the pairs are kept here in reply order. -/
def parsePairs : List Reply → Nat → Except Err (List (Int × Int))
  | [], _ => .ok []
  | info :: rest, i =>
    match redisInts info with
    | .ok [a, b] =>
      match parsePairs rest (i + 1) with
      | .ok l => .ok ((a, b) :: l)
      | .error e => .error e
    | _ => .error (.invalidResponseAt i info)

/-- `RedisClient.SlotsInfo`: issue `SLOTSINFO`, decode the reply as a
sequence of `(slotId, keyCount)` integer pairs. -/
def RedisClient.SlotsInfo (env : NetEnv) (c : RedisClient) (tr : List Cmd) :
    Except Err (List (Int × Int)) × RedisClient × List Cmd :=
  match RedisClient.command env c ⟨"SLOTSINFO", []⟩ tr with
  | (.error e, c2, tr2) => (.error e, c2, tr2)
  | (.ok reply, c2, tr2) =>
    match redisValues reply with
    | .error e => (.error (.decode e), c2, tr2)
    | .ok infos =>
      match parsePairs infos 0 with
      | .error e => (.error e, c2, tr2)
      | .ok pairs => (.ok pairs, c2, tr2)

/-- `RedisClient.SlotsMgrtTagSlot`: issue `SLOTSMGRTTAGSLOT host port 30000
slotId`, expect a two-integer reply `(status, movedCount)`; non-zero status
is a migration failure naming the slot, otherwise return the moved count. -/
def RedisClient.SlotsMgrtTagSlot (env : NetEnv) (c : RedisClient) (host port : String)
    (slotId : Int) (tr : List Cmd) :
    Except Err Int × RedisClient × List Cmd :=
  match RedisClient.command env c
      ⟨"SLOTSMGRTTAGSLOT", [host, port, toString (30 * 1000), toString slotId]⟩ tr with
  | (.error e, c2, tr2) => (.error e, c2, tr2)
  | (.ok reply, c2, tr2) =>
    match redisInts reply with
    | .ok [s, m] =>
      if s ≠ 0 then (.error (.migrateFailed slotId reply), c2, tr2)
      else (.ok m, c2, tr2)
    | _ => (.error (.invalidResponse reply), c2, tr2)

/-- Index of the first occurrence of a character, `byteIndex` in the Go
`net` package. -/
def indexOfChar : List Char → Char → Option Nat
  | [], _ => none
  | c :: rest, ch =>
    if c = ch then some 0 else (indexOfChar rest ch).map (· + 1)

/-- `strings.Split` on a one-character separator, at the character level:
splitting the empty text yields one empty piece, matching Go. -/
def splitOnChar (sep : Char) : List Char → List (List Char)
  | [] => [[]]
  | c :: rest =>
    if c = sep then [] :: splitOnChar sep rest
    else
      match splitOnChar sep rest with
      | [] => [[c]]
      | h :: t => (c :: h) :: t

/-- The ASCII white space characters `strings.TrimSpace` strips. -/
def isSpaceChar (c : Char) : Bool :=
  c = ' ' || c = '\t' || c = '\n' || c = '\x0b' || c = '\x0c' || c = '\r'

/-- `strings.TrimSpace` at the character level. -/
def trimChars (cs : List Char) : List Char :=
  ((cs.dropWhile isSpaceChar).reverse.dropWhile isSpaceChar).reverse

/-- One line of `INFO` output, as `RedisClient.GetInfo` parses it:
`strings.SplitN(line, ":", 2)` — cut at the first colon — then skip the
line unless it has a colon and the trimmed key is non-empty. -/
def parseInfoLine (line : List Char) : Option (String × String) :=
  match indexOfChar line ':' with
  | none => none
  | some i =>
    let key := (trimChars (line.take i)).asString
    if key = "" then none
    else some (key, (trimChars (line.drop (i + 1))).asString)

/-- The `key:value` pairs of an `INFO` text, in line order.  The Go code
stores them in a map, so a later binding of the same key overwrites an
earlier one; lookups here take the last binding. -/
def infoPairs (text : String) : List (String × String) :=
  (splitOnChar '\n' text.toList).filterMap parseInfoLine

/-- Go map read `info[key]` over `infoPairs`: the last binding wins, a
missing key reads as the empty string. -/
def infoGet (info : List (String × String)) (key : String) : String :=
  match info.reverse.find? (fun e => e.1 == key) with
  | some e => e.2
  | none => ""

/-- `RedisClient.GetInfo`: issue `INFO`, parse the bulk-string reply line by
line. -/
def RedisClient.GetInfo (env : NetEnv) (c : RedisClient) (tr : List Cmd) :
    Except Err (List (String × String)) × RedisClient × List Cmd :=
  match RedisClient.command env c ⟨"INFO", []⟩ tr with
  | (.error e, c2, tr2) => (.error e, c2, tr2)
  | (.ok reply, c2, tr2) =>
    match redisString reply with
    | .error e => (.error (.decode e), c2, tr2)
    | .ok text => (.ok (infoPairs text), c2, tr2)

/-- `net.JoinHostPort`: bracket the host when it contains a colon. -/
def joinHostPort (host port : String) : String :=
  if host.toList.contains ':' then "[" ++ host ++ "]:" ++ port
  else host ++ ":" ++ port

/-- `RedisClient.GetMaster`: read `master_host`/`master_port` from `INFO`;
both empty means "no master", otherwise join them into one address. -/
def RedisClient.GetMaster (env : NetEnv) (c : RedisClient) (tr : List Cmd) :
    Except Err String × RedisClient × List Cmd :=
  match RedisClient.GetInfo env c tr with
  | (.error e, c2, tr2) => (.error e, c2, tr2)
  | (.ok info, c2, tr2) =>
    let host := infoGet info "master_host"
    let port := infoGet info "master_port"
    if host = "" ∧ port = "" then (.ok "", c2, tr2)
    else (.ok (joinHostPort host port), c2, tr2)

/-- The result of `RedisClient.GetMaxMemory`, a `float64` in Go: either
`math.Inf(0)` or the exact integral value `float64(v)` (exact for every
value the claims range over). -/
inductive MaxMemory where
  | inf
  | finite (n : Int)
deriving DecidableEq

/-- `RedisClient.GetMaxMemory`: issue `CONFIG GET maxmemory`, expect a
two-element reply whose second element is an integer `v`; `v = 0` decodes
to positive infinity, any other `v` to `v` itself. -/
def RedisClient.GetMaxMemory (env : NetEnv) (c : RedisClient) (tr : List Cmd) :
    Except Err MaxMemory × RedisClient × List Cmd :=
  match RedisClient.command env c ⟨"CONFIG", ["GET", "maxmemory"]⟩ tr with
  | (.error e, c2, tr2) => (.error e, c2, tr2)
  | (.ok reply, c2, tr2) =>
    match redisValues reply with
    | .error _ => (.error (.invalidResponse reply), c2, tr2)
    | .ok p =>
      match p with
      | [_, v1] =>
        match redisInt v1 with
        | .error _ => (.error (.invalidResponse reply), c2, tr2)
        | .ok v => if v ≠ 0 then (.ok (.finite v), c2, tr2) else (.ok .inf, c2, tr2)
      | _ => (.error (.invalidResponse reply), c2, tr2)

/-- Index of the last occurrence of a character, `last(s, b)` in the Go
`net` package. -/
def lastIndexOfChar : List Char → Char → Option Nat
  | [], _ => none
  | c :: rest, ch =>
    match lastIndexOfChar rest ch with
    | some i => some (i + 1)
    | none => if c = ch then some 0 else none

/-- `net.SplitHostPort`: split on the last colon; a bracketed host must be
followed exactly by `]:port`; extra colons or brackets are errors. -/
def splitHostPort (hostport : String) : Except String (String × String) :=
  let cs := hostport.toList
  match lastIndexOfChar cs ':' with
  | none => .error "missing port in address"
  | some i =>
    match cs with
    | '[' :: _ =>
      match indexOfChar cs ']' with
      | none => .error "missing bracket in address"
      | some e =>
        if e + 1 = cs.length then .error "missing port in address"
        else if e + 1 = i then
          if (cs.drop 1).contains '[' then .error "unexpected bracket in address"
          else if (cs.drop (e + 1)).contains ']' then .error "unexpected bracket in address"
          else .ok (((cs.drop 1).take (e - 1)).asString, (cs.drop (i + 1)).asString)
        else if cs.getD (e + 1) ' ' = ':' then .error "too many colons in address"
        else .error "missing port in address"
    | _ =>
      let host := cs.take i
      if host.contains ':' then .error "too many colons in address"
      else if cs.contains '[' then .error "unexpected bracket in address"
      else if cs.contains ']' then .error "unexpected bracket in address"
      else .ok (host.asString, (cs.drop (i + 1)).asString)

/-- `RedisClient.SlaveOf`: refuse to replicate from the client's own
address; with empty `master` issue `SLAVEOF NO ONE`; otherwise look up the
current master, do nothing if it already matches, and else split the target
and issue `SLAVEOF host port`. -/
def RedisClient.SlaveOf (env : NetEnv) (c : RedisClient) (master : String) (tr : List Cmd) :
    Except Err Unit × RedisClient × List Cmd :=
  if master = c.addr then (.error .slaveOfItself, c, tr)
  else if master = "" then
    match RedisClient.command env c ⟨"SLAVEOF", ["NO", "ONE"]⟩ tr with
    | (.error e, c2, tr2) => (.error e, c2, tr2)
    | (.ok _, c2, tr2) => (.ok (), c2, tr2)
  else
    match RedisClient.GetMaster env c tr with
    | (.error e, c2, tr2) => (.error e, c2, tr2)
    | (.ok m, c2, tr2) =>
      if m = master then (.ok (), c2, tr2)
      else
        match splitHostPort master with
        | .error e => (.error (.badAddr e), c2, tr2)
        | .ok hp =>
          match RedisClient.command env c2 ⟨"SLAVEOF", [hp.1, hp.2]⟩ tr2 with
          | (.error e, c3, tr3) => (.error e, c3, tr3)
          | (.ok _, c3, tr3) => (.ok (), c3, tr3)

/-- The `RedisPool` struct: configuration, the registry `pool` mapping an
address to its ordered idle list (front of the list first), and the
`closed` flag.  The Go `map` is modelled as an association list with
distinct keys. -/
structure RedisPool where
  auth : String
  pool : List (String × List RedisClient)
  timeout : Nat
  closed : Bool
deriving DecidableEq

/-- The dialing environment for `NewRedisClient`: for a given address,
either a failure message for the dial / `AUTH` handshake, or success
(`none`). -/
structure DialEnv where
  dialErr : String → Option String

/-- `NewRedisClient`: dial the address (authenticating when `auth` is
non-empty); a fresh client starts unpoisoned with `LastUse = time.Now()`.
The dial and the optional `AUTH` round trip are decided by the `DialEnv`. -/
def NewRedisClient (env : DialEnv) (addr auth : String) (timeout now : Nat) :
    Except Err RedisClient :=
  match env.dialErr addr, auth, timeout with
  | some e, _, _ => .error (.dial e)
  | none, _, _ => .ok { addr := addr, LastErr := none, LastUse := now }

/-- Registry lookup `p.pool[addr]`: `none` plays the role of Go's nil
list. -/
def poolGet (m : List (String × List RedisClient)) (addr : String) :
    Option (List RedisClient) :=
  (m.find? (fun e => e.1 == addr)).map (fun e => e.2)

/-- Registry write `p.pool[addr] = l`: replace the existing entry, or
append a new one. -/
def poolSet (m : List (String × List RedisClient)) (addr : String)
    (l : List RedisClient) : List (String × List RedisClient) :=
  if m.any (fun e => e.1 == addr) then
    m.map (fun e => if e.1 == addr then (addr, l) else e)
  else m ++ [(addr, l)]

/-- `RedisPool.isRecyclable`: no recorded error, and either no idle timeout
or `LastUse + timeout/2` still strictly in the future. -/
def RedisPool.isRecyclable (p : RedisPool) (now : Nat) (c : RedisClient) : Bool :=
  if c.LastErr ≠ none then false
  else if p.timeout = 0 then true
  else decide (now < c.LastUse + p.timeout / 2)

/-- `RedisPool.Close`: no-op when already closed; otherwise mark closed,
close every idle client of every address and empty the registry.  The
second component is the new pool state, the third the clients closed. -/
def RedisPool.Close (p : RedisPool) : Except Err Unit × RedisPool × List RedisClient :=
  if p.closed then (.ok (), p, [])
  else (.ok (), { p with closed := true, pool := [] },
        p.pool.flatMap (fun e => e.2))

/-- The per-address loop of `RedisPool.Cleanup`: run `n` iterations (where
`n` is the list's length on entry), each removing the front client and
pushing it to the back when recyclable, closing it otherwise.  Returns the
final list and the clients closed, in scan order. -/
def cleanupLoop (p : RedisPool) (now : Nat) :
    Nat → List RedisClient → List RedisClient × List RedisClient
  | 0, l => (l, [])
  | _ + 1, [] => ([], [])
  | i + 1, c :: rest =>
    if p.isRecyclable now c then cleanupLoop p now i (rest ++ [c])
    else
      let r := cleanupLoop p now i rest
      (r.1, c :: r.2)

/-- `RedisPool.Cleanup`: fail on a closed pool; otherwise run the cleanup
loop on every address's list and delete the addresses whose list came out
empty. -/
def RedisPool.Cleanup (p : RedisPool) (now : Nat) :
    Except Err Unit × RedisPool × List RedisClient :=
  if p.closed then (.error .closedRedisPool, p, [])
  else
    let step := p.pool.map (fun e => (e.1, cleanupLoop p now e.2.length e.2))
    (.ok (),
     { p with pool := (step.filter (fun e => !e.2.1.isEmpty)).map (fun e => (e.1, e.2.1)) },
     step.flatMap (fun e => e.2.2))

/-- The scanning loop of `RedisPool.GetClient`: pop idle clients from the
front; the first recyclable one is returned together with the remaining
list, every non-recyclable one popped on the way is closed. -/
def getLoop (p : RedisPool) (now : Nat) :
    List RedisClient → Option RedisClient × List RedisClient × List RedisClient
  | [] => (none, [], [])
  | c :: rest =>
    if p.isRecyclable now c then (some c, rest, [])
    else
      let r := getLoop p now rest
      (r.1, r.2.1, c :: r.2.2)

/-- `RedisPool.GetClient`: fail on a closed pool; otherwise scan the
address's idle list for a recyclable client, and fall back to dialing a
brand-new one.  Returns the acquired client (or error), the new pool state
and the clients closed during the scan. -/
def RedisPool.GetClient (denv : DialEnv) (p : RedisPool) (now : Nat) (addr : String) :
    Except Err RedisClient × RedisPool × List RedisClient :=
  if p.closed then (.error .closedRedisPool, p, [])
  else
    match poolGet p.pool addr with
    | none => (NewRedisClient denv addr p.auth p.timeout now, p, [])
    | some l =>
      match getLoop p now l with
      | (some c, rem, cl) =>
        (.ok c, { p with pool := poolSet p.pool addr rem }, cl)
      | (none, _, cl) =>
        (NewRedisClient denv addr p.auth p.timeout now,
         { p with pool := poolSet p.pool addr [] }, cl)

/-- `RedisPool.PutClient`: when the pool is closed or the client is not
recyclable, close the client; otherwise push it to the front of its
address's idle list, creating the entry if absent.  The Go method returns
nothing; the result is the new pool state and the clients closed. -/
def RedisPool.PutClient (p : RedisPool) (now : Nat) (client : RedisClient) :
    RedisPool × List RedisClient :=
  if p.closed || !(p.isRecyclable now client) then (p, [client])
  else
    match poolGet p.pool client.addr with
    | none => ({ p with pool := poolSet p.pool client.addr [client] }, [])
    | some l => ({ p with pool := poolSet p.pool client.addr (client :: l) }, [])

/-! ## Theorems -/

/-- C1: for every Client whose `LastErr` is non-nil, every call to the
internal `command` primitive returns the fixed `ErrFailedRedisClient`
error, performs no network I/O (the trace of transmitted commands is
unchanged), and leaves the client — in particular `LastErr` and
`LastUse` — exactly as it was, so the poisoned state is permanent. -/
theorem command_poisoned_is_inert (env : NetEnv) (c : RedisClient) (cmd : Cmd)
    (tr : List Cmd) (h : c.LastErr ≠ none) :
    RedisClient.command env c cmd tr = (.error .failedRedisClient, c, tr) := by
  simp [RedisClient.command, h]

/-- Witness for C1 at a concrete poisoned client. -/
theorem command_poisoned_is_inert_witness :
    RedisClient.command { oracle := fun _ => .ok .nil, now := 9 }
        { addr := "a:1", LastErr := some "broken pipe", LastUse := 5 } ⟨"INFO", []⟩ [] =
      (.error .failedRedisClient,
       { addr := "a:1", LastErr := some "broken pipe", LastUse := 5 }, []) :=
  command_poisoned_is_inert _ _ _ _ (by decide)

/-- C3: a Client is recyclable iff it has no recorded error and either the
idle timeout is zero or `LastUse` plus half the timeout is strictly later
than now; in particular a Client with an error is never recyclable and,
with zero timeout, an error-free Client always is. -/
theorem isRecyclable_spec (p : RedisPool) (now : Nat) (c : RedisClient) :
    (p.isRecyclable now c = true ↔
      c.LastErr = none ∧ (p.timeout = 0 ∨ now < c.LastUse + p.timeout / 2)) ∧
    (c.LastErr ≠ none → p.isRecyclable now c = false) ∧
    (c.LastErr = none → p.timeout = 0 → p.isRecyclable now c = true) := by
  unfold RedisPool.isRecyclable
  refine ⟨?_, ?_, ?_⟩
  · by_cases hE : c.LastErr = none <;> by_cases hT : p.timeout = 0 <;> simp [hE, hT]
  · intro hE
    simp [hE]
  · intro hE hT
    simp [hE, hT]

/-- Witness for C3: an errored client is not recyclable; an error-free
client is recyclable under a zero timeout. -/
theorem isRecyclable_spec_witness :
    RedisPool.isRecyclable { auth := "", pool := [], timeout := 10, closed := false } 100
        { addr := "a:1", LastErr := some "oops", LastUse := 100 } = false ∧
    RedisPool.isRecyclable { auth := "", pool := [], timeout := 0, closed := false } 100
        { addr := "a:1", LastErr := none, LastUse := 0 } = true :=
  ⟨(isRecyclable_spec _ _ _).2.1 (by decide), (isRecyclable_spec _ _ _).2.2 rfl rfl⟩

/-- C8: on an unpoisoned client, the max-memory query decodes a raw
`maxmemory` of `0` to positive infinity and a raw value `n > 0` to exactly
`n`. -/
theorem getMaxMemory_spec (env : NetEnv) (c : RedisClient) (tr : List Cmd)
    (h : c.LastErr = none) :
    (∀ k : Reply, env.oracle tr.length = .ok (.arr [k, .int 0]) →
      (RedisClient.GetMaxMemory env c tr).1 = .ok .inf) ∧
    (∀ (k : Reply) (n : Int), env.oracle tr.length = .ok (.arr [k, .int n]) → 0 < n →
      (RedisClient.GetMaxMemory env c tr).1 = .ok (.finite n)) := by
  constructor
  · intro k hk
    simp [RedisClient.GetMaxMemory, RedisClient.command, h, hk, redisValues, redisInt]
  · intro k n hk hn
    simp [RedisClient.GetMaxMemory, RedisClient.command, h, hk, redisValues, redisInt,
      Int.ne_of_gt hn]

/-- Witness for C8: raw `0` gives infinity, raw `17` gives `17`. -/
theorem getMaxMemory_spec_witness :
    (RedisClient.GetMaxMemory
        { oracle := fun _ => .ok (.arr [.bulk "maxmemory", .int 0]), now := 3 }
        { addr := "a:1", LastErr := none, LastUse := 0 } []).1 = .ok .inf ∧
    (RedisClient.GetMaxMemory
        { oracle := fun _ => .ok (.arr [.bulk "maxmemory", .int 17]), now := 3 }
        { addr := "a:1", LastErr := none, LastUse := 0 } []).1 = .ok (.finite 17) :=
  ⟨(getMaxMemory_spec _ _ _ rfl).1 _ rfl,
   (getMaxMemory_spec _ _ _ rfl).2 _ 17 rfl (by decide)⟩

/-- C9: on an unpoisoned client, the shard-migration operation applied to a
two-integer reply `(status, movedCount)` yields the moved count when the
status is `0`, a migration-failure error naming the shard id and carrying
the raw reply when the status is non-zero, and a decode error carrying the
raw reply whenever the reply does not decode as exactly two integers. -/
theorem slotsMgrtTagSlot_spec (env : NetEnv) (c : RedisClient) (host port : String)
    (slotId : Int) (tr : List Cmd) (h : c.LastErr = none) :
    (∀ m : Int, env.oracle tr.length = .ok (.arr [.int 0, .int m]) →
      (RedisClient.SlotsMgrtTagSlot env c host port slotId tr).1 = .ok m) ∧
    (∀ s m : Int, env.oracle tr.length = .ok (.arr [.int s, .int m]) → s ≠ 0 →
      (RedisClient.SlotsMgrtTagSlot env c host port slotId tr).1 =
        .error (.migrateFailed slotId (.arr [.int s, .int m]))) ∧
    (∀ reply : Reply, env.oracle tr.length = .ok reply →
      (∀ a b : Int, redisInts reply ≠ .ok [a, b]) →
      (RedisClient.SlotsMgrtTagSlot env c host port slotId tr).1 =
        .error (.invalidResponse reply)) := by
  refine ⟨?_, ?_, ?_⟩
  · intro m hk
    simp [RedisClient.SlotsMgrtTagSlot, RedisClient.command, h, hk, redisInts,
      redisValues, redisIntList, redisInt]
  · intro s m hk hs
    simp [RedisClient.SlotsMgrtTagSlot, RedisClient.command, h, hk, redisInts,
      redisValues, redisIntList, redisInt, hs]
  · intro reply hk hbad
    simp only [RedisClient.SlotsMgrtTagSlot, RedisClient.command, h, ne_eq,
      not_false_eq_true, reduceIte, hk]
    rcases hI : redisInts reply with e | l
    · simp [hI]
    · match l with
      | [] => simp [hI]
      | [a] => simp [hI]
      | [a, b] => exact absurd hI (hbad a b)
      | a :: b :: x :: rest => simp [hI]

/-- Witness for C9: reply `(0, 17)` for shard 5 yields 17; reply `(1, 0)`
yields the migration failure naming shard 5; a reply that is a bare
integer yields the decode error. -/
theorem slotsMgrtTagSlot_spec_witness :
    (RedisClient.SlotsMgrtTagSlot
        { oracle := fun _ => .ok (.arr [.int 0, .int 17]), now := 3 }
        { addr := "a:1", LastErr := none, LastUse := 0 } "b" "6380" 5 []).1 = .ok 17 ∧
    (RedisClient.SlotsMgrtTagSlot
        { oracle := fun _ => .ok (.arr [.int 1, .int 0]), now := 3 }
        { addr := "a:1", LastErr := none, LastUse := 0 } "b" "6380" 5 []).1 =
      .error (.migrateFailed 5 (.arr [.int 1, .int 0])) ∧
    (RedisClient.SlotsMgrtTagSlot
        { oracle := fun _ => .ok (.int 9), now := 3 }
        { addr := "a:1", LastErr := none, LastUse := 0 } "b" "6380" 5 []).1 =
      .error (.invalidResponse (.int 9)) :=
  ⟨(slotsMgrtTagSlot_spec _ _ _ _ _ _ rfl).1 17 rfl,
   (slotsMgrtTagSlot_spec _ _ _ _ _ _ rfl).2.1 1 0 rfl (by decide),
   (slotsMgrtTagSlot_spec _ _ _ _ _ _ rfl).2.2 (.int 9) rfl
     (fun a b hab => by simp [redisInts, redisValues] at hab)⟩

/-- C2 (amended): after Close, GetClient and Cleanup fail with
`ErrClosedRedisPool`; PutClient, whose Go signature returns no error,
closes and discards the client instead of pooling it. -/
theorem closed_pool_ops (denv : DialEnv) (p : RedisPool) (now : Nat) (addr : String)
    (c : RedisClient) (h : p.closed = true) :
    RedisPool.GetClient denv p now addr = (.error .closedRedisPool, p, []) ∧
    RedisPool.Cleanup p now = (.error .closedRedisPool, p, []) ∧
    RedisPool.PutClient p now c = (p, [c]) := by
  refine ⟨?_, ?_, ?_⟩ <;>
    simp [RedisPool.GetClient, RedisPool.Cleanup, RedisPool.PutClient, h]

/-- C2 counterexample: on a closed pool, PutClient does not fail with
`ErrClosedRedisPool` — its result carries no error at all (the Go method
returns nothing); it closes and discards the client. -/
theorem putClient_closed_pool_returns_no_error :
    RedisPool.PutClient { auth := "", pool := [], timeout := 0, closed := true } 0
        { addr := "a:1", LastErr := none, LastUse := 0 } =
      ({ auth := "", pool := [], timeout := 0, closed := true },
       [{ addr := "a:1", LastErr := none, LastUse := 0 }]) := rfl

/-- Witness for C2 (amended) on a concrete closed pool. -/
theorem closed_pool_ops_witness :
    RedisPool.GetClient ⟨fun _ => none⟩
        { auth := "", pool := [("b:2", [])], timeout := 0, closed := true } 0 "b:2" =
      (.error .closedRedisPool,
       { auth := "", pool := [("b:2", [])], timeout := 0, closed := true }, []) ∧
    RedisPool.Cleanup
        { auth := "", pool := [("b:2", [])], timeout := 0, closed := true } 0 =
      (.error .closedRedisPool,
       { auth := "", pool := [("b:2", [])], timeout := 0, closed := true }, []) ∧
    RedisPool.PutClient
        { auth := "", pool := [("b:2", [])], timeout := 0, closed := true } 0
        { addr := "b:2", LastErr := none, LastUse := 0 } =
      ({ auth := "", pool := [("b:2", [])], timeout := 0, closed := true },
       [{ addr := "b:2", LastErr := none, LastUse := 0 }]) :=
  closed_pool_ops _ _ _ _ _ rfl

/-- C6: on an unclosed pool, the first Close succeeds, marks the pool
closed, closes every idle client and empties the registry; a second Close
succeeds, is a no-op, and closes nothing; the registry is empty after each
of the two calls. -/
theorem close_idempotent (p : RedisPool) (h : p.closed = false) :
    p.Close =
      (.ok (), { p with closed := true, pool := [] }, p.pool.flatMap (fun e => e.2)) ∧
    p.Close.2.1.Close = (.ok (), p.Close.2.1, []) ∧
    p.Close.2.1.pool = [] ∧ p.Close.2.1.Close.2.1.pool = [] := by
  simp [RedisPool.Close, h]

/-- Witness for C6 on a concrete one-address pool. -/
theorem close_idempotent_witness :
    RedisPool.Close
        { auth := "", pool := [("a:1", [{ addr := "a:1", LastErr := none, LastUse := 3 }])],
          timeout := 7, closed := false } =
      (.ok (), { auth := "", pool := [], timeout := 7, closed := true },
       [{ addr := "a:1", LastErr := none, LastUse := 3 }]) ∧
    (RedisPool.Close
        { auth := "", pool := [("a:1", [{ addr := "a:1", LastErr := none, LastUse := 3 }])],
          timeout := 7, closed := false }).2.1.Close =
      (.ok (),
       (RedisPool.Close
          { auth := "", pool := [("a:1", [{ addr := "a:1", LastErr := none, LastUse := 3 }])],
            timeout := 7, closed := false }).2.1, []) :=
  ⟨(close_idempotent _ rfl).1, (close_idempotent _ rfl).2.1⟩

/-- The cleanup loop, run for the length of the pending part of the list:
the survivors `s` already pushed to the back stay in front of the
recyclable pending clients, and the non-recyclable pending clients are
closed in scan order. -/
theorem cleanupLoop_eq (p : RedisPool) (now : Nat) (l s : List RedisClient) :
    cleanupLoop p now l.length (l ++ s) =
      (s ++ l.filter (p.isRecyclable now),
       l.filter (fun c => !(p.isRecyclable now c))) := by
  induction l generalizing s with
  | nil => simp [cleanupLoop]
  | cons c rest ih =>
    simp only [List.cons_append, List.length_cons, cleanupLoop, List.append_eq]
    by_cases hc : p.isRecyclable now c = true
    · rw [if_pos hc, List.append_assoc, ih (s ++ [c])]
      simp [List.filter_cons, hc]
    · rw [if_neg hc, ih s]
      simp only [Bool.not_eq_true] at hc
      simp [List.filter_cons, hc]

/-- Running the cleanup loop over a whole list keeps exactly the
recyclable clients, in order, and closes the rest, in order. -/
theorem cleanupLoop_filter (p : RedisPool) (now : Nat) (l : List RedisClient) :
    cleanupLoop p now l.length l =
      (l.filter (p.isRecyclable now),
       l.filter (fun c => !(p.isRecyclable now c))) := by
  have h := cleanupLoop_eq p now l []
  simpa using h

/-- Registry rebuilt by the cleanup loop: per address keep the recyclable
members and drop the entries that come out empty. -/
theorem cleanupPoolMap_eq (p : RedisPool) (now : Nat)
    (m : List (String × List RedisClient)) :
    ((m.map (fun e => (e.1, cleanupLoop p now e.2.length e.2))).filter
        (fun e => !e.2.1.isEmpty)).map (fun e => (e.1, e.2.1)) =
      (m.map (fun e => (e.1, e.2.filter (p.isRecyclable now)))).filter
        (fun e => !e.2.isEmpty) := by
  induction m with
  | nil => rfl
  | cons e rest ih =>
    simp only [List.map_cons, cleanupLoop_filter, List.filter_cons]
    simp only [cleanupLoop_filter] at ih
    by_cases he : ((e.2.filter (p.isRecyclable now)).isEmpty : Bool) = true <;>
      simp [he, ih]

/-- Clients closed by the cleanup loop: the non-recyclable members of every
address. -/
theorem cleanupPoolFlat_eq (p : RedisPool) (now : Nat)
    (m : List (String × List RedisClient)) :
    (m.map (fun e => (e.1, cleanupLoop p now e.2.length e.2))).flatMap (fun e => e.2.2) =
      m.flatMap (fun e => e.2.filter (fun c => !(p.isRecyclable now c))) := by
  induction m with
  | nil => rfl
  | cons e rest ih =>
    simp only [cleanupLoop_filter] at ih
    simp [cleanupLoop_filter, ih]

/-- C5: on an open pool, Cleanup succeeds and, for every address, retains
exactly the recyclable members of its idle list with their order
preserved, closes exactly the non-recyclable members, and drops the
addresses whose list becomes empty; on a closed pool it fails with
`ErrClosedRedisPool` and changes nothing. -/
theorem cleanup_spec (p : RedisPool) (now : Nat) :
    (p.closed = true → p.Cleanup now = (.error .closedRedisPool, p, [])) ∧
    (p.closed = false →
      p.Cleanup now =
        (.ok (),
         { p with pool := (p.pool.map
            (fun e => (e.1, e.2.filter (p.isRecyclable now)))).filter (fun e => !e.2.isEmpty) },
         p.pool.flatMap (fun e => e.2.filter (fun c => !(p.isRecyclable now c))))) := by
  constructor
  · intro h
    simp [RedisPool.Cleanup, h]
  · intro h
    simp only [RedisPool.Cleanup, h, Bool.false_eq_true, reduceIte]
    rw [cleanupPoolMap_eq, cleanupPoolFlat_eq]

/-- Witness for C5 on a concrete pool: the errored and the stale client are
closed, the fresh client survives, and the address whose list empties is
removed. -/
theorem cleanup_spec_witness :
    RedisPool.Cleanup
        { auth := "",
          pool := [("a:1", [{ addr := "a:1", LastErr := some "x", LastUse := 100 },
                            { addr := "a:1", LastErr := none, LastUse := 100 },
                            { addr := "a:1", LastErr := none, LastUse := 0 }]),
                   ("b:2", [{ addr := "b:2", LastErr := none, LastUse := 0 }])],
          timeout := 10, closed := false } 100 =
      (.ok (),
       { auth := "",
         pool := [("a:1", [{ addr := "a:1", LastErr := none, LastUse := 100 }])],
         timeout := 10, closed := false },
       [{ addr := "a:1", LastErr := some "x", LastUse := 100 },
        { addr := "a:1", LastErr := none, LastUse := 0 },
        { addr := "b:2", LastErr := none, LastUse := 0 }]) := by
  rw [(cleanup_spec _ 100).2 rfl]
  rfl

/-- The head the GetClient scan stops at does not satisfy the scanned-past
predicate. -/
theorem dropWhile_head_false {α : Type} (q : α → Bool) (l : List α) (c : α)
    (rem : List α) (h : l.dropWhile q = c :: rem) : q c = false := by
  induction l with
  | nil => simp [List.dropWhile] at h
  | cons a rest ih =>
    rw [List.dropWhile_cons] at h
    by_cases ha : q a = true
    · rw [if_pos ha] at h
      exact ih h
    · rw [if_neg ha] at h
      cases h
      simpa using ha

/-- GetClient's scanning loop when no client in the list is recyclable:
nothing found, and the whole list is closed. -/
theorem getLoop_none (p : RedisPool) (now : Nat) (l : List RedisClient)
    (h : l.dropWhile (fun x => !(p.isRecyclable now x)) = []) :
    getLoop p now l = (none, [], l) := by
  induction l with
  | nil => simp [getLoop]
  | cons a rest ih =>
    rw [List.dropWhile_cons] at h
    by_cases ha : p.isRecyclable now a = true
    · simp [ha] at h
    · simp only [ha, Bool.not_false, if_true, Bool.not_eq_true] at h ⊢
      have hr := ih (by simpa [ha] using h)
      simp [getLoop, ha, hr]

/-- GetClient's scanning loop when a recyclable client exists: the first
one is returned, the clients popped before it are closed, the rest of the
list stays. -/
theorem getLoop_found (p : RedisPool) (now : Nat) (l : List RedisClient)
    (c : RedisClient) (rem : List RedisClient)
    (h : l.dropWhile (fun x => !(p.isRecyclable now x)) = c :: rem) :
    getLoop p now l = (some c, rem, l.takeWhile (fun x => !(p.isRecyclable now x))) := by
  induction l with
  | nil => simp [List.dropWhile] at h
  | cons a rest ih =>
    rw [List.dropWhile_cons] at h
    by_cases ha : p.isRecyclable now a = true
    · rw [if_neg (by simp [ha])] at h
      cases h
      simp [getLoop, ha, List.takeWhile_cons]
    · rw [if_pos (by simp [ha])] at h
      have hr := ih h
      simp [getLoop, ha, List.takeWhile_cons, hr]

/-- C4: on an open pool, GetClient pops idle clients from the front of the
address's list: when some client is recyclable it returns the first such
client, leaves exactly the clients after it in the pool and closes exactly
the non-recyclable ones popped before it (which, when the list has no
duplicates, are gone from the pool and distinct from the returned client);
when no client is recyclable it closes the whole list and falls back to
constructing a brand-new client, as it also does when the address has no
entry. -/
theorem getClient_spec (denv : DialEnv) (p : RedisPool) (now : Nat) (addr : String)
    (h : p.closed = false) :
    (poolGet p.pool addr = none →
      RedisPool.GetClient denv p now addr =
        (NewRedisClient denv addr p.auth p.timeout now, p, [])) ∧
    (∀ l, poolGet p.pool addr = some l →
      l.dropWhile (fun x => !(p.isRecyclable now x)) = [] →
      (RedisPool.GetClient denv p now addr =
        (NewRedisClient denv addr p.auth p.timeout now,
         { p with pool := poolSet p.pool addr [] }, l) ∧
       ∀ x ∈ l, p.isRecyclable now x = false)) ∧
    (∀ l c rem, poolGet p.pool addr = some l →
      l.dropWhile (fun x => !(p.isRecyclable now x)) = c :: rem →
      (RedisPool.GetClient denv p now addr =
        (.ok c, { p with pool := poolSet p.pool addr rem },
         l.takeWhile (fun x => !(p.isRecyclable now x))) ∧
       p.isRecyclable now c = true ∧
       (∀ x ∈ l.takeWhile (fun x => !(p.isRecyclable now x)), p.isRecyclable now x = false) ∧
       (l.Nodup →
         ∀ x ∈ l.takeWhile (fun x => !(p.isRecyclable now x)), x ∉ (c :: rem)))) := by
  refine ⟨?_, ?_, ?_⟩
  · intro hg
    simp [RedisPool.GetClient, h, hg]
  · intro l hg hd
    have hwhole : l.takeWhile (fun x => !(p.isRecyclable now x)) = l := by
      have happ := List.takeWhile_append_dropWhile
        (p := fun x => !(p.isRecyclable now x)) (l := l)
      rw [hd] at happ
      simpa using happ
    constructor
    · simp [RedisPool.GetClient, h, hg, getLoop_none p now l hd]
    · intro x hx
      rw [← hwhole] at hx
      have := List.mem_takeWhile_imp hx
      simpa using this
  · intro l c rem hg hd
    refine ⟨?_, ?_, ?_, ?_⟩
    · simp [RedisPool.GetClient, h, hg, getLoop_found p now l c rem hd]
    · have := dropWhile_head_false (fun x => !(p.isRecyclable now x)) l c rem hd
      simpa using this
    · intro x hx
      have := List.mem_takeWhile_imp hx
      simpa using this
    · intro hnd x hx
      have happ := List.takeWhile_append_dropWhile
        (p := fun x => !(p.isRecyclable now x)) (l := l)
      rw [hd] at happ
      have hnd2 : (l.takeWhile (fun x => !(p.isRecyclable now x)) ++ (c :: rem)).Nodup := by
        rw [happ]; exact hnd
      exact List.disjoint_of_nodup_append hnd2 hx

/-- Witness for C4: scanning `[errored, fresh, stale]` at a 10-tick timeout
returns the fresh client, keeps the stale one, closes the errored one, and
the closed client is not among the survivors; an absent address dials a
brand-new client. -/
theorem getClient_spec_witness :
    RedisPool.GetClient ⟨fun _ => none⟩
        { auth := "",
          pool := [("a:1", [{ addr := "a:1", LastErr := some "x", LastUse := 100 },
                            { addr := "a:1", LastErr := none, LastUse := 100 },
                            { addr := "a:1", LastErr := none, LastUse := 0 }])],
          timeout := 10, closed := false } 100 "a:1" =
      (.ok { addr := "a:1", LastErr := none, LastUse := 100 },
       { auth := "",
         pool := [("a:1", [{ addr := "a:1", LastErr := none, LastUse := 0 }])],
         timeout := 10, closed := false },
       [{ addr := "a:1", LastErr := some "x", LastUse := 100 }]) ∧
    ({ addr := "a:1", LastErr := some "x", LastUse := 100 } : RedisClient) ∉
      [({ addr := "a:1", LastErr := none, LastUse := 100 } : RedisClient),
       { addr := "a:1", LastErr := none, LastUse := 0 }] ∧
    RedisPool.GetClient ⟨fun _ => none⟩
        { auth := "", pool := [], timeout := 10, closed := false } 100 "z:9" =
      (.ok { addr := "z:9", LastErr := none, LastUse := 100 },
       { auth := "", pool := [], timeout := 10, closed := false }, []) := by
  have h3 := (getClient_spec ⟨fun _ => none⟩
    { auth := "",
      pool := [("a:1", [{ addr := "a:1", LastErr := some "x", LastUse := 100 },
                        { addr := "a:1", LastErr := none, LastUse := 100 },
                        { addr := "a:1", LastErr := none, LastUse := 0 }])],
      timeout := 10, closed := false } 100 "a:1" rfl).2.2
    [{ addr := "a:1", LastErr := some "x", LastUse := 100 },
     { addr := "a:1", LastErr := none, LastUse := 100 },
     { addr := "a:1", LastErr := none, LastUse := 0 }]
    { addr := "a:1", LastErr := none, LastUse := 100 }
    [{ addr := "a:1", LastErr := none, LastUse := 0 }] rfl rfl
  have h1 := (getClient_spec ⟨fun _ => none⟩
    { auth := "", pool := [], timeout := 10, closed := false } 100 "z:9" rfl).1 rfl
  exact ⟨h3.1, h3.2.2.2 (by decide) _ (by decide), h1⟩

/-- A successful `command` call implies the client was unpoisoned, the
oracle produced the reply, the client got its `LastUse` stamped and the
command went out on the wire. -/
theorem command_ok_shape (env : NetEnv) (c : RedisClient) (cmd : Cmd) (tr : List Cmd)
    (r : Reply) (c2 : RedisClient) (tr2 : List Cmd)
    (h : RedisClient.command env c cmd tr = (.ok r, c2, tr2)) :
    c.LastErr = none ∧ env.oracle tr.length = .ok r ∧
    c2 = { c with LastUse := env.now } ∧ tr2 = tr ++ [cmd] := by
  unfold RedisClient.command at h
  by_cases hE : c.LastErr = none
  · rw [if_neg (by simp [hE])] at h
    cases ho : env.oracle tr.length with
    | error e => rw [ho] at h; simp at h
    | ok reply =>
      rw [ho] at h
      have h2 : r = reply ∧ c2 = { c with LastUse := env.now } ∧ tr2 = tr ++ [cmd] := by
        have hx := h.symm
        simp only [Prod.mk.injEq, Except.ok.injEq] at hx
        exact hx
      obtain ⟨rfl, rfl, rfl⟩ := h2
      exact ⟨hE, rfl, rfl, rfl⟩
  · rw [if_pos (by simpa using hE)] at h
    simp at h

/-- An unpoisoned client always writes the command to the wire, whatever
the transport outcome. -/
theorem command_trace (env : NetEnv) (c : RedisClient) (cmd : Cmd) (tr : List Cmd)
    (h : c.LastErr = none) :
    (RedisClient.command env c cmd tr).2.2 = tr ++ [cmd] := by
  unfold RedisClient.command
  rw [if_neg (by simp [h])]
  cases ho : env.oracle tr.length <;> rfl

/-- A successful `GetInfo` implies the client was unpoisoned, came out with
only its `LastUse` stamped, and exactly one `INFO` command went out. -/
theorem getInfo_ok_shape (env : NetEnv) (c : RedisClient) (tr : List Cmd)
    (info : List (String × String)) (c2 : RedisClient) (tr2 : List Cmd)
    (h : RedisClient.GetInfo env c tr = (.ok info, c2, tr2)) :
    c.LastErr = none ∧ c2 = { c with LastUse := env.now } ∧
    tr2 = tr ++ [⟨"INFO", []⟩] := by
  unfold RedisClient.GetInfo at h
  rcases hcmd : RedisClient.command env c ⟨"INFO", []⟩ tr with ⟨res, c3, tr3⟩
  rw [hcmd] at h
  cases res with
  | error e => simp at h
  | ok reply =>
    obtain ⟨hE, ho, hc3, htr3⟩ := command_ok_shape env c _ tr reply c3 tr3 hcmd
    cases hs : redisString reply with
    | error e2 => simp [hs] at h
    | ok text =>
      simp only [hs] at h
      have hx := h.symm
      simp only [Prod.mk.injEq, Except.ok.injEq] at hx
      obtain ⟨-, rfl, rfl⟩ := hx
      exact ⟨hE, hc3, htr3⟩

/-- A successful `GetMaster` implies the client was unpoisoned, came out
with only its `LastUse` stamped, and exactly one `INFO` command went
out. -/
theorem getMaster_ok_shape (env : NetEnv) (c : RedisClient) (tr : List Cmd)
    (m : String) (c2 : RedisClient) (tr2 : List Cmd)
    (h : RedisClient.GetMaster env c tr = (.ok m, c2, tr2)) :
    c.LastErr = none ∧ c2 = { c with LastUse := env.now } ∧
    tr2 = tr ++ [⟨"INFO", []⟩] := by
  unfold RedisClient.GetMaster at h
  rcases hgi : RedisClient.GetInfo env c tr with ⟨res, c3, tr3⟩
  rw [hgi] at h
  cases res with
  | error e => simp at h
  | ok info =>
    obtain ⟨hE, hc3, htr3⟩ := getInfo_ok_shape env c tr info c3 tr3 hgi
    dsimp only at h
    split at h <;>
      (have hx := h.symm
       simp only [Prod.mk.injEq, Except.ok.injEq] at hx
       obtain ⟨-, rfl, rfl⟩ := hx
       exact ⟨hE, hc3, htr3⟩)

/-- C7: SlaveOf refuses the client's own address before any I/O; with an
empty target it issues the detach command on an unpoisoned client; with a
non-empty target it first queries the current master (one `INFO` on the
wire) and returns success without issuing any attach command when the
answer already equals the target; otherwise it splits the target and
issues the attach command with the split host and port. -/
theorem slaveOf_spec (env : NetEnv) (c : RedisClient) (tr : List Cmd) :
    (∀ master, master = c.addr →
      RedisClient.SlaveOf env c master tr = (.error .slaveOfItself, c, tr)) ∧
    (c.addr ≠ "" → c.LastErr = none →
      (RedisClient.SlaveOf env c "" tr).2.2 = tr ++ [⟨"SLAVEOF", ["NO", "ONE"]⟩]) ∧
    (∀ master c2 tr2, master ≠ c.addr → master ≠ "" →
      RedisClient.GetMaster env c tr = (.ok master, c2, tr2) →
      RedisClient.SlaveOf env c master tr = (.ok (), c2, tr2) ∧
      tr2 = tr ++ [⟨"INFO", []⟩]) ∧
    (∀ master m c2 tr2 host port, master ≠ c.addr → master ≠ "" →
      RedisClient.GetMaster env c tr = (.ok m, c2, tr2) → m ≠ master →
      splitHostPort master = .ok (host, port) →
      (RedisClient.SlaveOf env c master tr).2.2 = tr2 ++ [⟨"SLAVEOF", [host, port]⟩] ∧
      tr2 = tr ++ [⟨"INFO", []⟩]) := by
  refine ⟨?_, ?_, ?_, ?_⟩
  · intro master hm
    simp [RedisClient.SlaveOf, hm]
  · intro ha hE
    unfold RedisClient.SlaveOf
    rw [if_neg (fun hh => ha hh.symm), if_pos rfl]
    rcases hcmd : RedisClient.command env c ⟨"SLAVEOF", ["NO", "ONE"]⟩ tr with ⟨res, c3, tr3⟩
    have ht := command_trace env c ⟨"SLAVEOF", ["NO", "ONE"]⟩ tr hE
    rw [hcmd] at ht
    cases res <;> simpa using ht
  · intro master c2 tr2 hma hme hgm
    obtain ⟨hE, hc2, htr2⟩ := getMaster_ok_shape env c tr master c2 tr2 hgm
    unfold RedisClient.SlaveOf
    rw [if_neg hma, if_neg hme, hgm]
    dsimp only
    rw [if_pos rfl]
    exact ⟨rfl, htr2⟩
  · intro master m c2 tr2 host port hma hme hgm hne hsp
    obtain ⟨hE, hc2, htr2⟩ := getMaster_ok_shape env c tr m c2 tr2 hgm
    unfold RedisClient.SlaveOf
    rw [if_neg hma, if_neg hme, hgm]
    dsimp only
    rw [if_neg hne, hsp]
    dsimp only
    rcases hcmd : RedisClient.command env c2 ⟨"SLAVEOF", [host, port]⟩ tr2 with ⟨res, c3, tr3⟩
    have ht := command_trace env c2 ⟨"SLAVEOF", [host, port]⟩ tr2 (by rw [hc2]; exact hE)
    rw [hcmd] at ht
    refine ⟨?_, htr2⟩
    cases res <;> simpa using ht

/-- Witness for C7: a node refuses itself; the detach command goes out for
an empty target; a target equal to the current master issues only `INFO`;
a different target issues `INFO` and then the attach command. -/
theorem slaveOf_spec_witness :
    RedisClient.SlaveOf
        { oracle := fun _ => .ok (.bulk "master_host:10.0.0.1\nmaster_port:6380\n"), now := 7 }
        { addr := "1.2.3.4:6379", LastErr := none, LastUse := 0 } "1.2.3.4:6379" [] =
      (.error .slaveOfItself, { addr := "1.2.3.4:6379", LastErr := none, LastUse := 0 }, []) ∧
    (RedisClient.SlaveOf
        { oracle := fun _ => .ok (.bulk "master_host:10.0.0.1\nmaster_port:6380\n"), now := 7 }
        { addr := "1.2.3.4:6379", LastErr := none, LastUse := 0 } "" []).2.2 =
      [⟨"SLAVEOF", ["NO", "ONE"]⟩] ∧
    RedisClient.SlaveOf
        { oracle := fun _ => .ok (.bulk "master_host:10.0.0.1\nmaster_port:6380\n"), now := 7 }
        { addr := "1.2.3.4:6379", LastErr := none, LastUse := 0 } "10.0.0.1:6380" [] =
      (.ok (), { addr := "1.2.3.4:6379", LastErr := none, LastUse := 7 }, [⟨"INFO", []⟩]) ∧
    (RedisClient.SlaveOf
        { oracle := fun _ => .ok (.bulk "master_host:10.0.0.1\nmaster_port:6380\n"), now := 7 }
        { addr := "1.2.3.4:6379", LastErr := none, LastUse := 0 } "10.0.0.9:6380" []).2.2 =
      [⟨"INFO", []⟩, ⟨"SLAVEOF", ["10.0.0.9", "6380"]⟩] := by
  have h := slaveOf_spec
    { oracle := fun _ => .ok (.bulk "master_host:10.0.0.1\nmaster_port:6380\n"), now := 7 }
    { addr := "1.2.3.4:6379", LastErr := none, LastUse := 0 } []
  refine ⟨h.1 _ rfl, h.2.1 (by decide) rfl, ?_, ?_⟩
  · exact (h.2.2.1 "10.0.0.1:6380"
      { addr := "1.2.3.4:6379", LastErr := none, LastUse := 7 } [⟨"INFO", []⟩]
      (by decide) (by decide) rfl).1
  · exact (h.2.2.2 "10.0.0.9:6380" "10.0.0.1:6380"
      { addr := "1.2.3.4:6379", LastErr := none, LastUse := 7 } [⟨"INFO", []⟩]
      "10.0.0.9" "6380" (by decide) (by decide) rfl (by decide) rfl).1

/-- On an unpoisoned client whose transport answers, `command` stamps
`LastUse` and appends the command to the wire trace. -/
theorem command_2_of_ok (env : NetEnv) (c : RedisClient) (cmd : Cmd) (tr : List Cmd)
    (h : c.LastErr = none) (reply : Reply) (hr : env.oracle tr.length = .ok reply) :
    (RedisClient.command env c cmd tr).2 = ({ c with LastUse := env.now }, tr ++ [cmd]) := by
  unfold RedisClient.command
  rw [if_neg (by simp [h]), hr]

/-- `SlotsInfo` returns the client and trace exactly as `command` left
them: reply decoding touches neither. -/
theorem slotsInfo_preserves (env : NetEnv) (c : RedisClient) (tr : List Cmd) :
    (RedisClient.SlotsInfo env c tr).2 = (RedisClient.command env c ⟨"SLOTSINFO", []⟩ tr).2 := by
  unfold RedisClient.SlotsInfo
  rcases hcmd : RedisClient.command env c ⟨"SLOTSINFO", []⟩ tr with ⟨res, c3, tr3⟩
  cases res with
  | error e => rfl
  | ok reply =>
    cases hv : redisValues reply with
    | error e => simp [hv]
    | ok infos => cases hp : parsePairs infos 0 <;> simp [hv, hp]

/-- `SlotsMgrtTagSlot` returns the client and trace exactly as `command`
left them: reply decoding and the status check touch neither. -/
theorem slotsMgrt_preserves (env : NetEnv) (c : RedisClient) (host port : String)
    (slotId : Int) (tr : List Cmd) :
    (RedisClient.SlotsMgrtTagSlot env c host port slotId tr).2 =
      (RedisClient.command env c
        ⟨"SLOTSMGRTTAGSLOT", [host, port, toString (30 * 1000), toString slotId]⟩ tr).2 := by
  unfold RedisClient.SlotsMgrtTagSlot
  rcases hcmd : RedisClient.command env c
    ⟨"SLOTSMGRTTAGSLOT", [host, port, toString (30 * 1000), toString slotId]⟩ tr
    with ⟨res, c3, tr3⟩
  cases res with
  | error e => rfl
  | ok reply =>
    rcases hI : redisInts reply with e | l
    · simp [hI]
    · match l with
      | [] => simp [hI]
      | [a] => simp [hI]
      | [a, b] => by_cases hz : a ≠ 0 <;> simp [hI, hz]
      | a :: b :: x :: rest => simp [hI]

/-- `GetMaxMemory` returns the client and trace exactly as `command` left
them: reply decoding touches neither. -/
theorem getMaxMemory_preserves (env : NetEnv) (c : RedisClient) (tr : List Cmd) :
    (RedisClient.GetMaxMemory env c tr).2 =
      (RedisClient.command env c ⟨"CONFIG", ["GET", "maxmemory"]⟩ tr).2 := by
  unfold RedisClient.GetMaxMemory
  rcases hcmd : RedisClient.command env c ⟨"CONFIG", ["GET", "maxmemory"]⟩ tr
    with ⟨res, c3, tr3⟩
  cases res with
  | error e => rfl
  | ok reply =>
    rcases hv : redisValues reply with e | l
    · simp [hv]
    · match l with
      | [] => simp [hv]
      | [a] => simp [hv]
      | [a, b] =>
        rcases hi : redisInt b with e2 | v
        · simp [hv, hi]
        · by_cases hz : v ≠ 0 <;> simp [hv, hi, hz]
      | a :: b :: x :: rest => simp [hv]

/-- C10: when the transport delivers a reply, no decode failure (wrong
arity or type in SlotsInfo, SlotsMgrtTagSlot or GetMaxMemory) and no
non-zero migration status sets `LastErr`: the client comes out unpoisoned,
is still recyclable by the pool predicate whenever timing permits (shown
for a zero idle timeout), and a subsequent `command` on it still performs
I/O. -/
theorem decode_failures_do_not_poison (env : NetEnv) (c : RedisClient) (tr : List Cmd)
    (host port : String) (slotId : Int) (reply : Reply)
    (h : c.LastErr = none) (hr : env.oracle tr.length = .ok reply) :
    (RedisClient.SlotsInfo env c tr).2.1.LastErr = none ∧
    (RedisClient.SlotsMgrtTagSlot env c host port slotId tr).2.1.LastErr = none ∧
    (RedisClient.GetMaxMemory env c tr).2.1.LastErr = none ∧
    (∀ (q : RedisPool) (t : Nat), q.timeout = 0 →
      q.isRecyclable t (RedisClient.SlotsInfo env c tr).2.1 = true ∧
      q.isRecyclable t (RedisClient.SlotsMgrtTagSlot env c host port slotId tr).2.1 = true ∧
      q.isRecyclable t (RedisClient.GetMaxMemory env c tr).2.1 = true) ∧
    (∀ (env2 : NetEnv) (cmd : Cmd) (tr2 : List Cmd),
      (RedisClient.command env2 (RedisClient.SlotsInfo env c tr).2.1 cmd tr2).2.2 =
        tr2 ++ [cmd] ∧
      (RedisClient.command env2
        (RedisClient.SlotsMgrtTagSlot env c host port slotId tr).2.1 cmd tr2).2.2 =
        tr2 ++ [cmd] ∧
      (RedisClient.command env2 (RedisClient.GetMaxMemory env c tr).2.1 cmd tr2).2.2 =
        tr2 ++ [cmd]) := by
  have e1 : (RedisClient.SlotsInfo env c tr).2.1 = { c with LastUse := env.now } :=
    congrArg Prod.fst
      ((slotsInfo_preserves env c tr).trans (command_2_of_ok env c _ tr h reply hr))
  have e2 : (RedisClient.SlotsMgrtTagSlot env c host port slotId tr).2.1 =
      { c with LastUse := env.now } :=
    congrArg Prod.fst ((slotsMgrt_preserves env c host port slotId tr).trans
      (command_2_of_ok env c _ tr h reply hr))
  have e3 : (RedisClient.GetMaxMemory env c tr).2.1 = { c with LastUse := env.now } :=
    congrArg Prod.fst
      ((getMaxMemory_preserves env c tr).trans (command_2_of_ok env c _ tr h reply hr))
  refine ⟨?_, ?_, ?_, ?_, ?_⟩
  · rw [e1]; exact h
  · rw [e2]; exact h
  · rw [e3]; exact h
  · intro q t hq
    refine ⟨?_, ?_, ?_⟩
    · rw [e1]; simp [RedisPool.isRecyclable, h, hq]
    · rw [e2]; simp [RedisPool.isRecyclable, h, hq]
    · rw [e3]; simp [RedisPool.isRecyclable, h, hq]
  · intro env2 cmd tr2
    refine ⟨?_, ?_, ?_⟩
    · exact command_trace env2 _ cmd tr2 (by rw [e1]; exact h)
    · exact command_trace env2 _ cmd tr2 (by rw [e2]; exact h)
    · exact command_trace env2 _ cmd tr2 (by rw [e3]; exact h)

/-- Witness for C10: a bare-integer reply makes all three decoders fail,
yet the client stays unpoisoned, recyclable, and still sends commands. -/
theorem decode_failures_do_not_poison_witness :
    (RedisClient.SlotsInfo { oracle := fun _ => .ok (.int 9), now := 42 }
        { addr := "a:1", LastErr := none, LastUse := 0 } []).1 =
      .error (.decode "unexpected type for Values") ∧
    (RedisClient.SlotsMgrtTagSlot { oracle := fun _ => .ok (.int 9), now := 42 }
        { addr := "a:1", LastErr := none, LastUse := 0 } "b" "6380" 5 []).1 =
      .error (.invalidResponse (.int 9)) ∧
    (RedisClient.SlotsInfo { oracle := fun _ => .ok (.int 9), now := 42 }
        { addr := "a:1", LastErr := none, LastUse := 0 } []).2.1.LastErr = none ∧
    (RedisClient.SlotsMgrtTagSlot { oracle := fun _ => .ok (.int 9), now := 42 }
        { addr := "a:1", LastErr := none, LastUse := 0 } "b" "6380" 5 []).2.1.LastErr = none ∧
    (RedisClient.GetMaxMemory { oracle := fun _ => .ok (.int 9), now := 42 }
        { addr := "a:1", LastErr := none, LastUse := 0 } []).2.1.LastErr = none ∧
    RedisPool.isRecyclable { auth := "", pool := [], timeout := 0, closed := false } 1000
      (RedisClient.SlotsInfo { oracle := fun _ => .ok (.int 9), now := 42 }
        { addr := "a:1", LastErr := none, LastUse := 0 } []).2.1 = true ∧
    (RedisClient.command { oracle := fun _ => .ok .nil, now := 50 }
      (RedisClient.SlotsInfo { oracle := fun _ => .ok (.int 9), now := 42 }
        { addr := "a:1", LastErr := none, LastUse := 0 } []).2.1 ⟨"INFO", []⟩ []).2.2 =
      [⟨"INFO", []⟩] := by
  have h := decode_failures_do_not_poison { oracle := fun _ => .ok (.int 9), now := 42 }
    { addr := "a:1", LastErr := none, LastUse := 0 } [] "b" "6380" 5 (.int 9) rfl rfl
  exact ⟨rfl, rfl, h.1, h.2.1, h.2.2.1,
    (h.2.2.2.1 { auth := "", pool := [], timeout := 0, closed := false } 1000 rfl).1,
    (h.2.2.2.2 { oracle := fun _ => .ok .nil, now := 50 } ⟨"INFO", []⟩ []).1⟩
